import Mathlib

/-!
Verification development for the `vscode-test-cli` test runner.

The TypeScript sources are shallowly embedded below:

* `src/vscode-tests.ts` — configuration resolution
  (`validateAndResolveConfiguration` and its helpers), extension
  provisioning (`installExtensions`,
  `getInstallArgsFromInstallationFolders`) and the host launcher
  (`runVSCodeTests`).
* `src/mocha-tests.ts` — the in-host test executor (`handleSpec`,
  `handleRequire`, `runMocha`).

Dynamic JavaScript values are modelled by `JVal`; the filesystem, the
subprocess layer and the external collaborators (VS Code download,
`runTests`, `fs-extra` operations) are modelled by explicit oracle
parameters, so that every function stays pure and executable.  Node's
POSIX `path.resolve` / `path.join` / `path.normalize` are embedded as
`posixResolve` / `posixJoin` / `normalizePath` over character lists.
-/

/-- A loosely typed JavaScript value, as found in a user configuration
file (`Record<string, unknown>` in the sources). -/
inductive JVal where
  | str (s : String)
  | bool (b : Bool)
  | num (n : Int)
  | arr (xs : List JVal)

/-- Kind of an entry on disk: used to model `fs-extra`'s `pathExists`
and `stat(...).isDirectory()`. -/
inductive FSEntry where
  | file
  | dir
deriving DecidableEq, Repr

/-- Filesystem oracle: `entries` models `pathExists`/`stat`, `listing`
models `readdir`. -/
structure FS where
  entries : String → Option FSEntry
  listing : String → List String

/-- `fs-extra`'s `pathExists`. -/
def pathExists (fs : FS) (p : String) : Bool :=
  (fs.entries p).isSome

/-! ### String helpers (JavaScript `startsWith` / `endsWith` / `includes`) -/

/-- JavaScript `String.prototype.startsWith`. -/
def strStartsWith (s p : String) : Bool :=
  List.isPrefixOf p.data s.data

/-- JavaScript `String.prototype.endsWith`. -/
def strEndsWith (s p : String) : Bool :=
  List.isPrefixOf p.data.reverse s.data.reverse

/-- Substring occurrence on character lists. -/
def containsSubList (needle : List Char) : List Char → Bool
  | [] => needle.isEmpty
  | c :: t => List.isPrefixOf needle (c :: t) || containsSubList needle t

/-- JavaScript `String.prototype.includes`. -/
def strIncludes (s sub : String) : Bool :=
  containsSubList sub.data s.data

/-! ### Node.js POSIX path operations -/

/-- Split a character list on a separator character, keeping empty
segments (the behaviour of splitting a path on `/`). -/
def splitCharAux (c : Char) : List Char → List Char → List String
  | [], cur => [String.mk cur.reverse]
  | x :: t, cur =>
      if x = c then String.mk cur.reverse :: splitCharAux c t []
      else splitCharAux c t (x :: cur)

/-- Split a string on a separator character. -/
def splitChar (c : Char) (s : String) : List String :=
  splitCharAux c s.data []

/-- One step of Node's `normalizeString`: drop empty and `.` segments,
and resolve `..` against the accumulated (reversed) segment stack.
When `allowAboveRoot` is false a `..` at the root is dropped. -/
def normStep (allowAboveRoot : Bool) (acc : List String) (seg : String) : List String :=
  if seg = "" then acc
  else if seg = "." then acc
  else if seg = ".." then
    match acc with
    | [] => if allowAboveRoot then [".."] else []
    | a :: rest => if a = ".." then ".." :: a :: rest else rest
  else seg :: acc

/-- Node's `normalizeString`: normalize the list of path segments. -/
def normSegs (allowAboveRoot : Bool) (segs : List String) : List String :=
  (segs.foldl (normStep allowAboveRoot) []).reverse

/-- The normalized core of a raw path string (segments re-joined). -/
def normCore (abs : Bool) (raw : String) : String :=
  String.intercalate "/" (normSegs (!abs) (splitChar '/' raw))

/-- Node.js `path.posix.normalize`. -/
def normalizePath (p : String) : String :=
  if p = "" then "."
  else
    let abs := strStartsWith p "/"
    let trailing := strEndsWith p "/"
    let core := normCore abs p
    let core1 := if core = "" ∧ abs = false then "." else core
    let core2 := if core1 ≠ "" ∧ trailing = true then core1 ++ "/" else core1
    if abs = true then "/" ++ core2 else core2

/-- Node.js `path.posix.join` for two arguments. -/
def posixJoin (a b : String) : String :=
  let parts := List.filter (fun s => s ≠ "") [a, b]
  if parts.isEmpty then "." else normalizePath (String.intercalate "/" parts)

/-- The right-to-left accumulation loop of Node's `path.posix.resolve`:
paths are prepended (each followed by a separator, empty arguments
skipped) until an absolute one is found, falling back to the process
working directory `cwd`. -/
def resolveRaw (cwd a b : String) : String × Bool :=
  if b ≠ "" ∧ strStartsWith b "/" = true then (b ++ "/", true)
  else
    let acc := if b = "" then "" else b ++ "/"
    if a ≠ "" ∧ strStartsWith a "/" = true then (a ++ "/" ++ acc, true)
    else
      let acc2 := if a = "" then acc else a ++ "/" ++ acc
      (cwd ++ "/" ++ acc2, strStartsWith cwd "/")

/-- Node.js `path.posix.resolve cwd [a, b]`: accumulate, then normalize
the segments and re-assemble. -/
def posixResolve (cwd a b : String) : String :=
  let rawAbs := resolveRaw cwd a b
  let core := normCore rawAbs.2 rawAbs.1
  if rawAbs.2 = true then (if core = "" then "/" else "/" ++ core)
  else (if core = "" then "." else core)

/-! ### Configuration data model (`src/vscode-tests.ts`) -/

/-- The raw user configuration: the fields of the `Configuration` type
read from the config file before validation, each an arbitrary dynamic
value or absent. -/
structure RawConfig where
  extensionDevelopmentPath : Option JVal := none
  userDataDir : Option JVal := none
  vscodeVersion : Option JVal := none
  uninstallExtensionIDs : Option JVal := none
  disabledExtensionIDs : Option JVal := none
  additionalExtensionFolders : Option JVal := none
  mochaConfigPath : Option JVal := none
  nycConfigPath : Option JVal := none
  workspacePath : Option JVal := none
  initWorkspace : Option JVal := none
  disableAllExtensions : Option JVal := none

/-- `ResolvedConfiguration` from `src/vscode-tests.ts`. -/
structure ResolvedConfiguration where
  extensionDevelopmentPath : String
  workspacePath : String
  initWorkspace : Bool
  mochaConfigPath : String
  nycConfigPath : Option String
  userDataDir : Option String
  vscodeVersion : Option String
  additionalExtensionFolders : Option (List String)
  uninstallExtensionIDs : Option (List String)
  disabledExtensionIDs : Option (List String)
  disableAllExtensions : Bool
deriving DecidableEq, Repr

/-- `assertStringOrUndefinedParameter`: typed view of a field that must
be a string or absent. -/
def assertStringOrUndefinedParameter (name : String) (value : Option JVal) :
    Except String (Option String) :=
  match value with
  | none => Except.ok none
  | some (JVal.str s) => Except.ok (some s)
  | some _ => Except.error ("Configuration error: " ++ name ++ " must be a string")

/-- Collect a list of dynamic values that must all be strings
(the loop body of `assertStringArrayOrUndefinedParameter`). -/
def asStrings : List JVal → Option (List String)
  | [] => some []
  | JVal.str s :: rest => (asStrings rest).map (fun l => s :: l)
  | _ :: _ => none

/-- `assertStringArrayOrUndefinedParameter`: typed view of a field that
must be an array of strings or absent. -/
def assertStringArrayOrUndefinedParameter (name : String) (value : Option JVal) :
    Except String (Option (List String)) :=
  match value with
  | none => Except.ok none
  | some (JVal.arr xs) =>
      match asStrings xs with
      | some ss => Except.ok (some ss)
      | none => Except.error ("Configuration error: " ++ name ++ " must be a string array")
  | some _ => Except.error ("Configuration error: " ++ name ++ " must be a string array")

/-- `validateNycConfigPath` from `src/vscode-tests.ts`: when coverage is
requested the field must be a defined string and is resolved against the
configuration directory; otherwise it is ignored entirely. -/
def validateNycConfigPath (cwd : String) (isCoverage : Bool) (config : RawConfig)
    (configRelPath : String) : Except String (Option String) :=
  if isCoverage then
    Except.bind (assertStringOrUndefinedParameter "nycConfigPath" config.nycConfigPath)
      (fun nycOpt =>
        match nycOpt with
        | none =>
            Except.error
              "Configuration error: nycConfigPath must be defined when coverage is enabled"
        | some s => Except.ok (some (posixResolve cwd configRelPath s)))
  else Except.ok none

/-- `validateInitWorkspace` from `src/vscode-tests.ts`. -/
def validateInitWorkspace (fs : FS) (config : RawConfig) (isWorkspaceFile : Bool)
    (workspacePath : String) : Except String Bool :=
  match config.initWorkspace with
  | none => Except.ok (isWorkspaceFile && !(pathExists fs workspacePath))
  | some (JVal.bool b) =>
      if b = true ∧ isWorkspaceFile = false then
        Except.error
          "Configuration error: initWorkspace can be true only for a workspace file and not a folder"
      else Except.ok b
  | some _ => Except.error "Configuration error: initWorkspace must be a boolean"

/-- `validateAndResolveConfiguration` from `src/vscode-tests.ts`.
`cwd` is the process working directory consumed by `path.resolve`
whenever its arguments are all relative. -/
def validateAndResolveConfiguration (fs : FS) (cwd configPath : String)
    (config : RawConfig) (isCoverage : Bool) : Except String ResolvedConfiguration :=
  let configRelPath := posixResolve cwd configPath ".."
  Except.bind
    (assertStringOrUndefinedParameter "extensionDevelopmentPath"
      config.extensionDevelopmentPath) (fun edpOpt =>
  let extensionDevelopmentPath := posixResolve cwd configRelPath (edpOpt.getD ".")
  Except.bind (assertStringOrUndefinedParameter "userDataDir" config.userDataDir)
    (fun uddOpt =>
  let userDataDir := uddOpt.map (fun u => posixResolve cwd configRelPath u)
  Except.bind (assertStringOrUndefinedParameter "vscodeVersion" config.vscodeVersion)
    (fun vscodeVersion =>
  Except.bind
    (assertStringArrayOrUndefinedParameter "uninstallExtensionIDs"
      config.uninstallExtensionIDs) (fun uninstallExtensionIDs =>
  Except.bind
    (assertStringArrayOrUndefinedParameter "disabledExtensionIDs"
      config.disabledExtensionIDs) (fun disabledExtensionIDs =>
  Except.bind
    (assertStringArrayOrUndefinedParameter "additionalExtensionFolders"
      config.additionalExtensionFolders) (fun aefOpt =>
  let additionalExtensionFolders :=
    aefOpt.map (fun l => l.map (fun p => posixResolve cwd configRelPath p))
  Except.bind (assertStringOrUndefinedParameter "mochaConfigPath" config.mochaConfigPath)
    (fun mcpOpt =>
  Except.bind
    (match mcpOpt with
     | none => Except.error "Configuration error: mochaConfigPath must be defined"
     | some s => Except.ok (posixResolve cwd configRelPath s)) (fun mochaConfigPath =>
  Except.bind (validateNycConfigPath cwd isCoverage config configRelPath)
    (fun nycConfigPath =>
  Except.bind (assertStringOrUndefinedParameter "workspacePath" config.workspacePath)
    (fun wpOpt =>
  let workspacePath := posixResolve cwd configRelPath (wpOpt.getD "test.code-workspace")
  let isWorkspaceFile := strEndsWith workspacePath ".code-workspace"
  Except.bind
    (if isWorkspaceFile = false then
      if pathExists fs workspacePath = false ∨ fs.entries workspacePath ≠ some FSEntry.dir
      then
        Except.error
          "Configuration error: workspacePath must end with .code-workspace or be an existing folder"
      else Except.ok ()
    else Except.ok ()) (fun _ =>
  Except.bind (validateInitWorkspace fs config isWorkspaceFile workspacePath)
    (fun initWorkspace =>
  let disableDefault :=
    match additionalExtensionFolders with
    | none => true
    | some l => l.isEmpty
  Except.bind
    (match config.disableAllExtensions with
     | none => Except.ok disableDefault
     | some (JVal.bool b) => Except.ok b
     | some _ => Except.error "Configuration error: disableAllExtensions must be a boolean")
    (fun disableAllExtensions =>
  Except.ok
    { extensionDevelopmentPath, workspacePath, initWorkspace, mochaConfigPath,
      nycConfigPath, userDataDir, vscodeVersion, additionalExtensionFolders,
      uninstallExtensionIDs, disabledExtensionIDs, disableAllExtensions })))))))))))))

/-! ### Environment-variable keys (`src/constants.ts`)

The constants module itself is not among the provided sources; the key
strings are pinned by the repository's tests, which stub exactly these
environment variables. -/

def ENV_VAR_MOCHA_CWD : String := "VSCODE_TEST_CLI_MOCHA_CWD"

def ENV_VAR_MOCHA_CONFIG_PATH : String := "VSCODE_TEST_CLI_MOCHA_CONFIG_PATH"

def ENV_VAR_NYC_CWD : String := "VSCODE_TEST_CLI_NYC_CWD"

def ENV_VAR_NYC_CONFIG_PATH : String := "VSCODE_TEST_CLI_NYC_CONFIG_PATH"

def ENV_VAR_BASE_TEST_PATH : String := "VSCODE_TEST_CLI_BASE_TEST_PATH"

/-! ### In-host test executor (`src/mocha-tests.ts`) -/

/-- JavaScript string coercion of a dynamic value, as produced by `+`
concatenation in the error messages of `handleSpec`/`handleRequire`
(arrays display as their comma-joined elements). -/
def jvalDisplay : JVal → String
  | JVal.str s => s
  | JVal.bool b => if b = true then "true" else "false"
  | JVal.num n => toString n
  | JVal.arr xs => jvalDisplayList xs
where
  jvalDisplayList : List JVal → String
    | [] => ""
    | [x] => jvalDisplay x
    | x :: y :: t => jvalDisplay x ++ "," ++ jvalDisplayList (y :: t)

/-- Display of a possibly-absent dynamic value (`undefined` in JS). -/
def optDisplay : Option JVal → String
  | none => "undefined"
  | some v => jvalDisplay v

/-- `handleSpec` from `src/mocha-tests.ts`: the `spec` key must be a
string; it is removed from the config and used as the glob pattern. -/
def handleSpec (specVal : Option JVal) : Except String String :=
  match specVal with
  | some (JVal.str s) => Except.ok s
  | v =>
      Except.error
        ("spec property in Mocha configuration must be a string. Unexpected value: "
          ++ optDisplay v)

/-- The loop body of `handleRequire`: each array entry must be a string
and is required in order; the first non-string entry raises. -/
def requireEntries : List JVal → Except String (List String)
  | [] => Except.ok []
  | JVal.str s :: rest => Except.map (fun l => s :: l) (requireEntries rest)
  | m :: _ =>
      Except.error
        ("require property in Mocha configuration must be a string or array of strings. Unexpected value: "
          ++ jvalDisplay m)

/-- `handleRequire` from `src/mocha-tests.ts`: a string is wrapped into
a one-element array; an array is checked entrywise; any other value is
silently ignored.  The result is the list of modules required. -/
def handleRequire (requireVal : Option JVal) : Except String (List String) :=
  match requireVal with
  | some (JVal.str s) => Except.ok [s]
  | some (JVal.arr xs) => requireEntries xs
  | _ => Except.ok []

/-- Outcome of `mocha.run`: either a synchronous exception while
starting execution, or a reported failing-test count. -/
inductive MochaRunBehavior where
  | throws (e : String)
  | reports (failures : Nat)

/-- `runMocha` from `src/mocha-tests.ts`.  The glob collaborator is an
oracle result; on success the resolved file list added to the mocha
instance is returned. -/
def runMocha (cwd mochaCwd : String) (globResult : Except String (List String))
    (behavior : MochaRunBehavior) : Except String (List String) :=
  match globResult with
  | Except.error e => Except.error e
  | Except.ok files =>
      let added := files.map (fun f => posixResolve cwd mochaCwd f)
      match behavior with
      | MochaRunBehavior.throws e => Except.error e
      | MochaRunBehavior.reports failures =>
          if failures > 0 then Except.error (toString failures ++ " tests failed.")
          else Except.ok added

/-- The `spec` and `require` keys of a loaded mocha configuration file
(the remaining keys are passed to the Mocha constructor unchanged). -/
structure MochaConfigFile where
  spec : Option JVal := none
  require : Option JVal := none

/-- The exported `run` of `src/mocha-tests.ts`: read the two environment
variables, load the config module, handle `spec` and `require`, then
discover and run the tests. -/
def mochaTestsRun (envMochaCwd envConfigPath : Option String)
    (loadConfig : String → MochaConfigFile) (cwd : String)
    (globOracle : String → Except String (List String))
    (behavior : MochaRunBehavior) : Except String (List String) :=
  match envMochaCwd, envConfigPath with
  | some mochaCwd, some configPath =>
      let config := loadConfig configPath
      Except.bind (handleSpec config.spec) (fun globPattern =>
      Except.bind (handleRequire config.require) (fun _ =>
      runMocha cwd mochaCwd (globOracle globPattern) behavior))
  | _, _ =>
      Except.error
        ("The following environment variables must be defined for mocha tests: "
          ++ ENV_VAR_MOCHA_CWD ++ ", " ++ ENV_VAR_MOCHA_CONFIG_PATH)

/-! ### Extension provisioning (`src/vscode-tests.ts`) -/

/-- A `spawnSync` call on the VS Code CLI.  `captureOutput` is true when
the output is piped for inspection (`encoding: "utf-8"` without
`stdio: "inherit"`) and false when the output is inherited. -/
structure Invocation where
  cli : String
  args : List String
  captureOutput : Bool
deriving DecidableEq, Repr

def USER_DATA_DIR_PARAM : String := "--user-data-dir"

/-- The optional `--user-data-dir <dir>` argument pair. -/
def userDataDirArgs (userDataDir : Option String) : List String :=
  match userDataDir with
  | some d => [USER_DATA_DIR_PARAM, d]
  | none => []

/-- `getInstallArgsFromInstallationFolders` from `src/vscode-tests.ts`:
for each folder, the folder must exist and contain at least one `.vsix`
file; every `.vsix` file yields an `--install-extension <path>` pair,
preserving folder order and listing order. -/
def getInstallArgsFromInstallationFolders (fs : FS) :
    List String → Except String (List String)
  | [] => Except.ok []
  | vsixFolder :: rest =>
      if pathExists fs vsixFolder = false then
        Except.error
          ("Folder " ++ vsixFolder ++ " which contains *.vsix dependencies does not exist")
      else
        let files := fs.listing vsixFolder
        let vsixFiles := files.filter (fun f => strEndsWith f ".vsix")
        if vsixFiles.isEmpty then
          Except.error ("Could not find *.vsix files in " ++ vsixFolder)
        else
          Except.bind (getInstallArgsFromInstallationFolders fs rest) (fun restArgs =>
            Except.ok
              ((vsixFiles.foldr
                  (fun f acc => "--install-extension" :: posixJoin vsixFolder f :: acc) [])
                ++ restArgs))

/-- `installExtensions` from `src/vscode-tests.ts`.  `installStderr`
models the captured standard error of the piped install `spawnSync`
call, indexed by its argument list (`none` models an undefined
`stderr`).  The result is the ordered list of CLI invocations. -/
def installExtensions (fs : FS) (installStderr : List String → Option String)
    (cliPath : String) (userDataDir : Option String)
    (uninstallExtensionIDs : Option (List String))
    (installExtensionFolders : Option (List String)) :
    Except String (List Invocation) :=
  if (installExtensionFolders.getD []).isEmpty ∧ (uninstallExtensionIDs.getD []).isEmpty
  then Except.ok []
  else
    let uninstallExtensionIDsArray := uninstallExtensionIDs.getD []
    let uninstallArgs0 :=
      uninstallExtensionIDsArray.foldr (fun i acc => "--uninstall-extension" :: i :: acc) []
    Except.bind
      (getInstallArgsFromInstallationFolders fs (installExtensionFolders.getD []))
      (fun installArgs0 =>
    let installArgs := installArgs0 ++ ["--force"] ++ userDataDirArgs userDataDir
    let uninstallArgs := uninstallArgs0 ++ ["--force"] ++ userDataDirArgs userDataDir
    let uninstallInvs :=
      if uninstallExtensionIDsArray.length > 0 then
        [Invocation.mk cliPath uninstallArgs false]
      else []
    let installInvs :=
      if (installExtensionFolders.getD []).length > 0 then
        let firstInstall := Invocation.mk cliPath installArgs true
        match installStderr installArgs with
        | some stderr =>
            if strIncludes stderr "Failed" && strIncludes stderr "restart" then
              [firstInstall, Invocation.mk cliPath installArgs false]
            else [firstInstall]
        | none => [firstInstall]
      else []
    Except.ok (uninstallInvs ++ installInvs))

/-! ### Host launcher (`src/vscode-tests.ts`, `runVSCodeTests`) -/

/-- `toLowerDriveLetter` from `src/vscode-tests.ts`: on win32, a leading
uppercase drive letter followed by a colon is lower-cased. -/
def toLowerDriveLetter (isWin32 : Bool) (path : String) : String :=
  match path.data with
  | c :: ':' :: rest =>
      if isWin32 && c.isUpper then String.mk (c.toLower :: ':' :: rest) else path
  | _ => path

/-- The workspace descriptor JSON document written by the launcher. -/
structure WorkspaceDescriptor where
  folders : List String
deriving DecidableEq, Repr

/-- The argument bundle handed to the `runTests` collaborator. -/
structure LaunchSpec where
  vscodeExecutablePath : String
  extensionDevelopmentPath : String
  extensionTestsPath : String
  launchArgs : List String
  extensionTestsEnv : List (String × String)
deriving DecidableEq, Repr

/-- Outcomes of the external collaborators used by `runVSCodeTests`:
VS Code download, parent-directory creation, descriptor write, the
`runTests` host call, and descriptor deletion. -/
structure HostOracles where
  downloadResult : Except String String
  installStderr : List String → Option String
  mkdirsResult : Except String Unit
  writeJsonResult : Except String Unit
  runTestsResult : Except String Unit
  unlinkResult : Except String Unit

/-- Observable trace of one `runVSCodeTests` run. -/
structure RunTrace where
  spawned : List Invocation := []
  wroteWorkspace : Option (String × WorkspaceDescriptor) := none
  ranTests : Option LaunchSpec := none
  workspaceDeleted : Option String := none
  deleteFailureLogged : Option String := none
  outcome : Except String Unit

/-- The `finally` block of `runVSCodeTests`: if a workspace descriptor
was created, attempt to delete it; a deletion failure is logged and
swallowed.  The body's outcome is returned unchanged in either case. -/
def finalizeRun (o : HostOracles) (spawned : List Invocation)
    (workspaceFileToDelete : Option (String × WorkspaceDescriptor))
    (ranTests : Option LaunchSpec) (outcome : Except String Unit) : RunTrace :=
  match workspaceFileToDelete with
  | none => { spawned, ranTests, outcome }
  | some pw =>
      match o.unlinkResult with
      | Except.ok _ =>
          { spawned, wroteWorkspace := some pw, ranTests,
            workspaceDeleted := some pw.1, outcome }
      | Except.error _ =>
          { spawned, wroteWorkspace := some pw, ranTests,
            deleteFailureLogged := some pw.1, outcome }

/-- `runVSCodeTests` from `src/vscode-tests.ts`.  `dirnameVar` is the
module's `__dirname`; directory creation (`mkdirs`) is modelled by its
outcome.  The descriptor is recorded as written exactly when `writeJson`
succeeded, which is also when the source assigns
`workspaceFileToDelete`. -/
def runVSCodeTests (fs : FS) (isWin32 : Bool) (cwd dirnameVar : String)
    (resolveCliPathFromVSCodeExecutablePath : String → String)
    (o : HostOracles) (isCoverage : Bool) (config : ResolvedConfiguration) : RunTrace :=
  match o.downloadResult with
  | Except.error e => finalizeRun o [] none none (Except.error e)
  | Except.ok vscodeExecutablePath =>
      match installExtensions fs o.installStderr
          (resolveCliPathFromVSCodeExecutablePath vscodeExecutablePath)
          config.userDataDir config.uninstallExtensionIDs
          config.additionalExtensionFolders with
      | Except.error e => finalizeRun o [] none none (Except.error e)
      | Except.ok invs =>
          let testsCwd := toLowerDriveLetter isWin32 config.extensionDevelopmentPath
          let env0 := [(ENV_VAR_MOCHA_CWD, testsCwd),
                       (ENV_VAR_MOCHA_CONFIG_PATH, config.mochaConfigPath)]
          let env1 :=
            if isCoverage then
              env0 ++ [(ENV_VAR_NYC_CWD, testsCwd),
                       (ENV_VAR_NYC_CONFIG_PATH, config.nycConfigPath.getD "")]
            else env0
          let mochaTestsPath := posixResolve cwd dirnameVar "mocha-tests"
          let env2 :=
            if isCoverage then env1 ++ [(ENV_VAR_BASE_TEST_PATH, mochaTestsPath)] else env1
          let extensionTestsPath :=
            if isCoverage then posixResolve cwd dirnameVar "nyc-coverage" else mochaTestsPath
          match (if config.initWorkspace then
                  match o.mkdirsResult with
                  | Except.error e => Except.error e
                  | Except.ok _ =>
                      match o.writeJsonResult with
                      | Except.error e => Except.error e
                      | Except.ok _ =>
                          Except.ok (some (config.workspacePath, WorkspaceDescriptor.mk []))
                 else Except.ok none) with
          | Except.error e => finalizeRun o invs none none (Except.error e)
          | Except.ok workspaceFileToDelete =>
              let launchArgs := [config.workspacePath]
                ++ userDataDirArgs config.userDataDir
                ++ (match config.disabledExtensionIDs with
                    | none => []
                    | some ids =>
                        ids.foldr (fun i acc => "--disable-extension" :: i :: acc) [])
                ++ (if config.disableAllExtensions then ["--disable-extensions"] else [])
              let spec : LaunchSpec :=
                { vscodeExecutablePath,
                  extensionDevelopmentPath := config.extensionDevelopmentPath,
                  extensionTestsPath, launchArgs, extensionTestsEnv := env2 }
              finalizeRun o invs workspaceFileToDelete (some spec) o.runTestsResult

/-! ### Inversion lemmas for the `Except` plumbing -/

theorem except_bind_ok {ε α β : Type} {x : Except ε α} {f : α → Except ε β} {b : β}
    (h : Except.bind x f = Except.ok b) : ∃ a, x = Except.ok a ∧ f a = Except.ok b := by
  cases x with
  | error e => simp [Except.bind] at h
  | ok a => exact ⟨a, rfl, h⟩

theorem except_bind_err {ε α β : Type} {x : Except ε α} {f : α → Except ε β} {e : ε}
    (h : Except.bind x f = Except.error e) :
    x = Except.error e ∨ ∃ a, x = Except.ok a ∧ f a = Except.error e := by
  cases x with
  | error e2 =>
      simp only [Except.bind, Except.error.injEq] at h
      exact Or.inl (by rw [h])
  | ok a => exact Or.inr ⟨a, rfl, h⟩

theorem assertString_map (n : String) (o : Option String) :
    assertStringOrUndefinedParameter n (o.map JVal.str) = Except.ok o := by
  cases o <;> rfl

theorem assertString_ok_inv {n : String} {v : Option JVal} {o : Option String}
    (h : assertStringOrUndefinedParameter n v = Except.ok o) : v = o.map JVal.str := by
  cases v with
  | none =>
      simp only [assertStringOrUndefinedParameter, Except.ok.injEq] at h
      subst h; rfl
  | some jv =>
      cases jv with
      | str s =>
          simp only [assertStringOrUndefinedParameter, Except.ok.injEq] at h
          subst h; rfl
      | bool b => simp [assertStringOrUndefinedParameter] at h
      | num m => simp [assertStringOrUndefinedParameter] at h
      | arr xs => simp [assertStringOrUndefinedParameter] at h

theorem assertString_err_inv {n : String} {v : Option JVal} {e : String}
    (h : assertStringOrUndefinedParameter n v = Except.error e) :
    e = "Configuration error: " ++ n ++ " must be a string" := by
  cases v with
  | none => simp [assertStringOrUndefinedParameter] at h
  | some jv =>
      cases jv with
      | str s => simp [assertStringOrUndefinedParameter] at h
      | bool b =>
          simp only [assertStringOrUndefinedParameter, Except.error.injEq] at h
          exact h.symm
      | num m =>
          simp only [assertStringOrUndefinedParameter, Except.error.injEq] at h
          exact h.symm
      | arr xs =>
          simp only [assertStringOrUndefinedParameter, Except.error.injEq] at h
          exact h.symm

theorem asStrings_map (ss : List String) : asStrings (ss.map JVal.str) = some ss := by
  induction ss with
  | nil => rfl
  | cons s t ih => simp [asStrings, ih]

theorem asStrings_some_inv {xs : List JVal} {ss : List String}
    (h : asStrings xs = some ss) : xs = ss.map JVal.str := by
  induction xs generalizing ss with
  | nil =>
      simp only [asStrings, Option.some.injEq] at h
      subst h; rfl
  | cons x t ih =>
      cases x with
      | str s =>
          simp only [asStrings, Option.map_eq_some'] at h
          obtain ⟨u, hu, hss⟩ := h
          subst hss
          simp [ih hu]
      | bool b => simp [asStrings] at h
      | num m => simp [asStrings] at h
      | arr ys => simp [asStrings] at h

theorem assertArray_map (n : String) (o : Option (List String)) :
    assertStringArrayOrUndefinedParameter n
      (o.map (fun l => JVal.arr (l.map JVal.str))) = Except.ok o := by
  cases o with
  | none => rfl
  | some l => simp [assertStringArrayOrUndefinedParameter, asStrings_map]

theorem assertArray_ok_inv {n : String} {v : Option JVal} {o : Option (List String)}
    (h : assertStringArrayOrUndefinedParameter n v = Except.ok o) :
    v = o.map (fun l => JVal.arr (l.map JVal.str)) := by
  cases v with
  | none =>
      simp only [assertStringArrayOrUndefinedParameter, Except.ok.injEq] at h
      subst h; rfl
  | some jv =>
      cases jv with
      | str s => simp [assertStringArrayOrUndefinedParameter] at h
      | bool b => simp [assertStringArrayOrUndefinedParameter] at h
      | num m => simp [assertStringArrayOrUndefinedParameter] at h
      | arr xs =>
          rcases hx : asStrings xs with _ | ss
          · simp [assertStringArrayOrUndefinedParameter, hx] at h
          · simp only [assertStringArrayOrUndefinedParameter, hx, Except.ok.injEq] at h
            subst h
            simp [asStrings_some_inv hx]

theorem assertArray_err_inv {n : String} {v : Option JVal} {e : String}
    (h : assertStringArrayOrUndefinedParameter n v = Except.error e) :
    e = "Configuration error: " ++ n ++ " must be a string array" := by
  cases v with
  | none => simp [assertStringArrayOrUndefinedParameter] at h
  | some jv =>
      cases jv with
      | str s =>
          simp only [assertStringArrayOrUndefinedParameter, Except.error.injEq] at h
          exact h.symm
      | bool b =>
          simp only [assertStringArrayOrUndefinedParameter, Except.error.injEq] at h
          exact h.symm
      | num m =>
          simp only [assertStringArrayOrUndefinedParameter, Except.error.injEq] at h
          exact h.symm
      | arr xs =>
          rcases hx : asStrings xs with _ | ss
          · simp only [assertStringArrayOrUndefinedParameter, hx, Except.error.injEq] at h
            exact h.symm
          · simp [assertStringArrayOrUndefinedParameter, hx] at h

theorem validateNyc_false (cwd : String) (c : RawConfig) (rel : String) :
    validateNycConfigPath cwd false c rel = Except.ok none := rfl

theorem validateNyc_true_ok_inv {cwd : String} {c : RawConfig} {rel : String}
    {o : Option String} (h : validateNycConfigPath cwd true c rel = Except.ok o) :
    ∃ s, c.nycConfigPath = some (JVal.str s) ∧ o = some (posixResolve cwd rel s) := by
  simp only [validateNycConfigPath, if_true] at h
  obtain ⟨nycOpt, hA, h2⟩ := except_bind_ok h
  cases nycOpt with
  | none => simp at h2
  | some s =>
      simp only [Except.ok.injEq] at h2
      exact ⟨s, assertString_ok_inv hA, h2.symm⟩

theorem validateInitWorkspace_none {fs : FS} {c : RawConfig} {iwf : Bool} {wp : String}
    (h : c.initWorkspace = none) :
    validateInitWorkspace fs c iwf wp = Except.ok (iwf && !(pathExists fs wp)) := by
  simp [validateInitWorkspace, h]

theorem validateInitWorkspace_err_inv {fs : FS} {c : RawConfig} {iwf : Bool} {wp : String}
    {e : String} (h : validateInitWorkspace fs c iwf wp = Except.error e) :
    e = "Configuration error: initWorkspace can be true only for a workspace file and not a folder"
      ∨ e = "Configuration error: initWorkspace must be a boolean" := by
  rcases hc : c.initWorkspace with _ | jv
  · simp [validateInitWorkspace, hc] at h
  · cases jv with
    | str s =>
        simp only [validateInitWorkspace, hc, Except.error.injEq] at h
        exact Or.inr h.symm
    | bool b =>
        simp only [validateInitWorkspace, hc] at h
        by_cases hb : b = true ∧ iwf = false
        · rw [if_pos hb] at h
          simp only [Except.error.injEq] at h
          exact Or.inl h.symm
        · rw [if_neg hb] at h
          simp at h
    | num m =>
        simp only [validateInitWorkspace, hc, Except.error.injEq] at h
        exact Or.inr h.symm
    | arr xs =>
        simp only [validateInitWorkspace, hc, Except.error.injEq] at h
        exact Or.inr h.symm

theorem jval_str_map_eq {o : Option String} {P : String}
    (h : o.map JVal.str = some (JVal.str P)) : o = some P := by
  cases o with
  | none => simp at h
  | some q =>
      simp only [Option.map_some', Option.some.injEq, JVal.str.injEq] at h
      simp [h]

/-- Success inversion for `validateAndResolveConfiguration`: what each
field of the result must look like, given the raw input. -/
theorem validate_ok_inv {fs : FS} {cwd cp : String} {cfg : RawConfig} {cov : Bool}
    {r : ResolvedConfiguration}
    (h : validateAndResolveConfiguration fs cwd cp cfg cov = Except.ok r) :
    (∃ s, cfg.mochaConfigPath = some (JVal.str s) ∧
        r.mochaConfigPath = posixResolve cwd (posixResolve cwd cp "..") s) ∧
    (cov = false → r.nycConfigPath = none) ∧
    (cov = true → ∃ s, cfg.nycConfigPath = some (JVal.str s) ∧
        r.nycConfigPath = some (posixResolve cwd (posixResolve cwd cp "..") s)) ∧
    (∀ P, cfg.extensionDevelopmentPath = some (JVal.str P) →
        r.extensionDevelopmentPath = posixResolve cwd (posixResolve cwd cp "..") P) ∧
    (∀ P, cfg.userDataDir = some (JVal.str P) →
        r.userDataDir = some (posixResolve cwd (posixResolve cwd cp "..") P)) ∧
    (∀ P, cfg.workspacePath = some (JVal.str P) →
        r.workspacePath = posixResolve cwd (posixResolve cwd cp "..") P) ∧
    (∀ ss : List String,
        cfg.additionalExtensionFolders = some (JVal.arr (ss.map JVal.str)) →
        r.additionalExtensionFolders
          = some (ss.map (fun p => posixResolve cwd (posixResolve cwd cp "..") p))) ∧
    (cfg.initWorkspace = none →
        r.initWorkspace
          = (strEndsWith r.workspacePath ".code-workspace"
              && !(pathExists fs r.workspacePath))) ∧
    (cfg.disableAllExtensions = none →
        r.disableAllExtensions = (r.additionalExtensionFolders.getD []).isEmpty) ∧
    (∀ b, cfg.disableAllExtensions = some (JVal.bool b) → r.disableAllExtensions = b) := by
  simp only [validateAndResolveConfiguration] at h
  obtain ⟨edpOpt, hEdp, h⟩ := except_bind_ok h
  obtain ⟨uddOpt, hUdd, h⟩ := except_bind_ok h
  obtain ⟨vvOpt, hVv, h⟩ := except_bind_ok h
  obtain ⟨unOpt, hUn, h⟩ := except_bind_ok h
  obtain ⟨disOpt, hDis, h⟩ := except_bind_ok h
  obtain ⟨aefOpt, hAef, h⟩ := except_bind_ok h
  obtain ⟨mcpOpt, hMcp, h⟩ := except_bind_ok h
  obtain ⟨mcp, hMcp2, h⟩ := except_bind_ok h
  obtain ⟨nycOpt, hNyc, h⟩ := except_bind_ok h
  obtain ⟨wpOpt, hWp, h⟩ := except_bind_ok h
  obtain ⟨u, hWs, h⟩ := except_bind_ok h
  obtain ⟨iw, hIw, h⟩ := except_bind_ok h
  obtain ⟨dall, hDall, h⟩ := except_bind_ok h
  simp only [Except.ok.injEq] at h
  subst h
  refine ⟨?_, ?_, ?_, ?_, ?_, ?_, ?_, ?_, ?_, ?_⟩
  · -- mochaConfigPath
    cases mcpOpt with
    | none => simp at hMcp2
    | some s =>
        simp only [Except.ok.injEq] at hMcp2
        exact ⟨s, by simpa using assertString_ok_inv hMcp, by simp [← hMcp2]⟩
  · -- nycConfigPath when coverage is off
    intro hcov
    subst hcov
    rw [validateNyc_false] at hNyc
    simp only [Except.ok.injEq] at hNyc
    simp [← hNyc]
  · -- nycConfigPath when coverage is on
    intro hcov
    subst hcov
    obtain ⟨s, hs, ho⟩ := validateNyc_true_ok_inv hNyc
    exact ⟨s, hs, by simp [ho]⟩
  · -- extensionDevelopmentPath
    intro P hP
    have := assertString_ok_inv hEdp
    rw [hP] at this
    have he := jval_str_map_eq this.symm
    simp [he]
  · -- userDataDir
    intro P hP
    have := assertString_ok_inv hUdd
    rw [hP] at this
    have he := jval_str_map_eq this.symm
    simp [he]
  · -- workspacePath
    intro P hP
    have := assertString_ok_inv hWp
    rw [hP] at this
    have he := jval_str_map_eq this.symm
    simp [he]
  · -- additionalExtensionFolders
    intro ss hss
    have hv := assertArray_ok_inv hAef
    rw [hss] at hv
    cases aefOpt with
    | none => simp at hv
    | some l =>
        simp only [Option.map_some', Option.some.injEq, JVal.arr.injEq] at hv
        have hls : l = ss :=
          (List.map_injective_iff.mpr (fun a b hab => by injection hab)) hv.symm
        simp [hls]
  · -- default initWorkspace
    intro hnone
    rw [validateInitWorkspace_none hnone] at hIw
    simp only [Except.ok.injEq] at hIw
    simp [← hIw]
  · -- default disableAllExtensions
    intro hnone
    rw [hnone] at hDall
    simp only [Except.ok.injEq] at hDall
    cases aefOpt with
    | none => simp [← hDall]
    | some l => simp [← hDall]
  · -- explicit disableAllExtensions
    intro b hb
    rw [hb] at hDall
    simp only [Except.ok.injEq] at hDall
    simp [← hDall]

/-! ### Path algebra: `resolve` against an absolute base vs `join` -/

theorem str_data_append (a b : String) : (a ++ b).data = a.data ++ b.data := rfl

theorem str_mk_nil : String.mk [] = "" := rfl

theorem strStartsWith_slash_ne {a : String} (h : strStartsWith a "/" = true) :
    a ≠ "" := by
  intro he
  rw [he] at h
  exact absurd h (by decide)

theorem data_slash : ("/" : String).data = ['/'] := rfl

theorem isPrefixOf_singleton (x c : Char) (t : List Char) :
    List.isPrefixOf [x] (c :: t) = (x == c) := by
  simp [List.isPrefixOf]

theorem strStartsWith_append_slash {a : String} (x : String)
    (ha : strStartsWith a "/" = true) : strStartsWith (a ++ x) "/" = true := by
  unfold strStartsWith at *
  rw [str_data_append]
  rcases hd : a.data with _ | ⟨c, t⟩
  · rw [hd] at ha
    exact absurd ha (by decide)
  · rw [hd] at ha
    rw [data_slash] at ha ⊢
    rw [isPrefixOf_singleton] at ha
    simp [isPrefixOf_singleton, ha]

theorem strEndsWith_append_slash (x : String) {b : String} (hb : b ≠ "") :
    strEndsWith (x ++ b) "/" = strEndsWith b "/" := by
  unfold strEndsWith
  rw [str_data_append, List.reverse_append]
  rcases hd : b.data.reverse with _ | ⟨c, t⟩
  · exfalso
    apply hb
    have hnil : b.data = [] := by
      have := congrArg List.reverse hd
      simpa using this
    exact String.ext hnil
  · simp [data_slash, isPrefixOf_singleton]

theorem append_ne_empty_left {a : String} (ha : a ≠ "") (x : String) :
    a ++ x ≠ "" := by
  intro h
  apply ha
  have hd := congrArg String.data h
  rw [str_data_append] at hd
  have : a.data = [] := (List.append_eq_nil.mp hd).1
  exact String.ext this

theorem str_append_empty_right (s : String) : s ++ "" = s := by
  apply String.ext
  rw [str_data_append]
  simp

theorem str_append_assoc (a b c : String) : a ++ b ++ c = a ++ (b ++ c) := by
  apply String.ext
  simp [str_data_append]

theorem splitCharAux_append_sep (c : Char) (l : List Char) :
    ∀ cur, splitCharAux c (l ++ [c]) cur = splitCharAux c l cur ++ [""] := by
  induction l with
  | nil =>
      intro cur
      simp [splitCharAux, str_mk_nil]
  | cons x t ih =>
      intro cur
      by_cases hx : x = c
      · subst hx
        simp [splitCharAux, ih]
      · simp [splitCharAux, hx, ih]

theorem normStep_empty (flag : Bool) (acc : List String) :
    normStep flag acc "" = acc := rfl

theorem normSegs_append_empty (flag : Bool) (segs : List String) :
    normSegs flag (segs ++ [""]) = normSegs flag segs := by
  unfold normSegs
  rw [List.foldl_append]
  rfl

theorem normCore_append_slash (x : String) :
    normCore true (x ++ "/") = normCore true x := by
  unfold normCore splitChar
  rw [str_data_append, data_slash, splitCharAux_append_sep, normSegs_append_empty]

theorem resolveRaw_relative {cwd a b : String} (ha : strStartsWith a "/" = true)
    (hb : b ≠ "") (hbs : strStartsWith b "/" = false) :
    resolveRaw cwd a b = (a ++ "/" ++ (b ++ "/"), true) := by
  have haNe : a ≠ "" := strStartsWith_slash_ne ha
  unfold resolveRaw
  rw [if_neg (by simp [hbs]), if_neg hb, if_pos ⟨haNe, ha⟩]

theorem intercalate_pair (a b : String) :
    String.intercalate "/" [a, b] = a ++ "/" ++ b := rfl

theorem posixResolve_eq_posixJoin {cwd a b : String}
    (ha : strStartsWith a "/" = true) (hb : b ≠ "")
    (hbs : strStartsWith b "/" = false) (hbe : strEndsWith b "/" = false) :
    posixResolve cwd a b = posixJoin a b := by
  have haNe : a ≠ "" := strStartsWith_slash_ne ha
  have hpNe : a ++ "/" ++ b ≠ "" :=
    append_ne_empty_left (append_ne_empty_left haNe "/") b
  have habs : strStartsWith (a ++ "/" ++ b) "/" = true :=
    strStartsWith_append_slash b (strStartsWith_append_slash "/" ha)
  have htr : strEndsWith (a ++ "/" ++ b) "/" = false := by
    rw [strEndsWith_append_slash (a ++ "/") hb]
    exact hbe
  have hcore : normCore true (a ++ "/" ++ (b ++ "/")) = normCore true (a ++ "/" ++ b) := by
    have : a ++ "/" ++ (b ++ "/") = (a ++ "/" ++ b) ++ "/" := by
      rw [str_append_assoc (a ++ "/") b "/"]
    rw [this, normCore_append_slash]
  unfold posixResolve posixJoin
  rw [resolveRaw_relative ha hb hbs]
  simp only [List.filter, decide_not]
  rw [show (decide (a = "")) = false by simp [haNe],
      show (decide (b = "")) = false by simp [hb]]
  simp only [Bool.not_false, List.isEmpty_cons, intercalate_pair]
  unfold normalizePath
  rw [if_neg hpNe, habs, htr]
  simp only [Bool.true_eq_false, and_false, if_false, ite_false, ite_true,
    Bool.false_eq_true]
  rw [hcore]
  by_cases hc : normCore true (a ++ "/" ++ b) = ""
  · rw [hc]
    simp [str_append_empty_right]
  · simp [hc]

theorem resolveRaw_cwd_irrel {a : String} (ha : strStartsWith a "/" = true)
    (cwd cwd2 b : String) : resolveRaw cwd a b = resolveRaw cwd2 a b := by
  have haNe : a ≠ "" := strStartsWith_slash_ne ha
  by_cases hb : b ≠ "" ∧ strStartsWith b "/" = true
  · simp only [resolveRaw, if_pos hb]
  · simp only [resolveRaw, if_neg hb, if_pos (And.intro haNe ha)]

theorem posixResolve_cwd_irrel {a : String} (ha : strStartsWith a "/" = true)
    (cwd cwd2 b : String) : posixResolve cwd a b = posixResolve cwd2 a b := by
  unfold posixResolve
  rw [resolveRaw_cwd_irrel ha cwd cwd2 b]

theorem resolveRaw_snd_abs {cwd a b : String} (ha : strStartsWith a "/" = true) :
    (resolveRaw cwd a b).2 = true := by
  have haNe : a ≠ "" := strStartsWith_slash_ne ha
  by_cases hb : b ≠ "" ∧ strStartsWith b "/" = true
  · simp [resolveRaw, if_pos hb]
  · simp [resolveRaw, if_neg hb, if_pos (And.intro haNe ha)]

theorem posixResolve_abs {cwd a b : String} (ha : strStartsWith a "/" = true) :
    strStartsWith (posixResolve cwd a b) "/" = true := by
  have h2 : (resolveRaw cwd a b).2 = true := resolveRaw_snd_abs ha
  simp only [posixResolve]
  rw [h2, if_pos rfl]
  by_cases hc : normCore true (resolveRaw cwd a b).1 = ""
  · rw [if_pos hc]
    decide
  · rw [if_neg hc]
    exact strStartsWith_append_slash _ (by decide)

/-- When coverage is not requested, the nyc-missing configuration error
can never be produced by resolution, whatever the raw input. -/
theorem validate_noCov_ne_nycMissing (fs : FS) (cwd cp : String) (cfg : RawConfig) :
    validateAndResolveConfiguration fs cwd cp cfg false
      ≠ Except.error
          "Configuration error: nycConfigPath must be defined when coverage is enabled" := by
  intro h
  simp only [validateAndResolveConfiguration] at h
  rcases except_bind_err h with h1 | ⟨edpOpt, hEdp, h⟩
  · exact absurd (assertString_err_inv h1) (by decide)
  rcases except_bind_err h with h1 | ⟨uddOpt, hUdd, h⟩
  · exact absurd (assertString_err_inv h1) (by decide)
  rcases except_bind_err h with h1 | ⟨vvOpt, hVv, h⟩
  · exact absurd (assertString_err_inv h1) (by decide)
  rcases except_bind_err h with h1 | ⟨unOpt, hUn, h⟩
  · exact absurd (assertArray_err_inv h1) (by decide)
  rcases except_bind_err h with h1 | ⟨disOpt, hDis, h⟩
  · exact absurd (assertArray_err_inv h1) (by decide)
  rcases except_bind_err h with h1 | ⟨aefOpt, hAef, h⟩
  · exact absurd (assertArray_err_inv h1) (by decide)
  rcases except_bind_err h with h1 | ⟨mcpOpt, hMcp, h⟩
  · exact absurd (assertString_err_inv h1) (by decide)
  rcases except_bind_err h with h1 | ⟨mcp, hMcp2, h⟩
  · cases mcpOpt with
    | none =>
        simp only [Except.error.injEq] at h1
        exact absurd h1 (by decide)
    | some s => simp at h1
  rcases except_bind_err h with h1 | ⟨nycOpt, hNyc, h⟩
  · rw [validateNyc_false] at h1
    exact Except.noConfusion h1
  rcases except_bind_err h with h1 | ⟨wpOpt, hWp, h⟩
  · exact absurd (assertString_err_inv h1) (by decide)
  rcases except_bind_err h with h1 | ⟨u, hWs, h⟩
  · split at h1
    · split at h1
      · simp only [Except.error.injEq] at h1
        exact absurd h1 (by decide)
      · exact Except.noConfusion h1
    · exact Except.noConfusion h1
  rcases except_bind_err h with h1 | ⟨iw, hIw, h⟩
  · rcases validateInitWorkspace_err_inv h1 with he | he <;> exact absurd he (by decide)
  rcases except_bind_err h with h1 | ⟨dall, hDall, h⟩
  · rcases hda : cfg.disableAllExtensions with _ | jv
    · rw [hda] at h1
      exact Except.noConfusion h1
    · cases jv with
      | str s =>
          rw [hda] at h1
          simp only [Except.error.injEq] at h1
          exact absurd h1 (by decide)
      | bool b =>
          rw [hda] at h1
          exact Except.noConfusion h1
      | num m =>
          rw [hda] at h1
          simp only [Except.error.injEq] at h1
          exact absurd h1 (by decide)
      | arr xs =>
          rw [hda] at h1
          simp only [Except.error.injEq] at h1
          exact absurd h1 (by decide)
  exact Except.noConfusion h

theorem validate_cwd_irrel {cp : String} (hcp : strStartsWith cp "/" = true)
    (fs : FS) (cwd cwd2 : String) (cfg : RawConfig) (cov : Bool) :
    validateAndResolveConfiguration fs cwd cp cfg cov
      = validateAndResolveConfiguration fs cwd2 cp cfg cov := by
  have habs : strStartsWith (posixResolve cwd cp "..") "/" = true := posixResolve_abs hcp
  have hrel : posixResolve cwd cp ".." = posixResolve cwd2 cp ".." :=
    posixResolve_cwd_irrel hcp cwd cwd2 ".."
  have h1 : ∀ y, posixResolve cwd (posixResolve cwd cp "..") y
      = posixResolve cwd2 (posixResolve cwd2 cp "..") y := by
    intro y
    rw [posixResolve_cwd_irrel habs cwd cwd2 y, hrel]
  simp only [validateAndResolveConfiguration, validateNycConfigPath, h1]

theorem containsSubList_of_isPrefixOf {n l : List Char}
    (h : List.isPrefixOf n l = true) : containsSubList n l = true := by
  cases l with
  | nil =>
      cases n with
      | nil => rfl
      | cons c t => simp [List.isPrefixOf] at h
  | cons c t => simp [containsSubList, h]

/-- A path literal that is relative (no leading separator) and has no
trailing separator. -/
def relPathOk (P : String) : Prop :=
  P ≠ "" ∧ strStartsWith P "/" = false ∧ strEndsWith P "/" = false

instance (P : String) : Decidable (relPathOk P) := by
  unfold relPathOk
  infer_instance

/-- C5: the in-host test executor's `runMocha` rejects with the message
`"N tests failed."` exactly when the test runner reports `N > 0`
failures, and resolves (having added the discovered files) when the
reported count is zero. -/
theorem claim_C5_runMocha_failure_signal (cwd mochaCwd : String)
    (files : List String) (failures : Nat) :
    (0 < failures →
      runMocha cwd mochaCwd (Except.ok files) (MochaRunBehavior.reports failures)
        = Except.error (toString failures ++ " tests failed.")) ∧
    (failures = 0 →
      runMocha cwd mochaCwd (Except.ok files) (MochaRunBehavior.reports failures)
        = Except.ok (files.map (fun f => posixResolve cwd mochaCwd f))) := by
  constructor
  · intro h
    simp [runMocha, h]
  · intro h
    simp [runMocha, h]

/-- C5 witness: one failing test yields exactly the message
`"1 tests failed."`; zero failures resolve. -/
theorem claim_C5_witness :
    (runMocha "/cwd" "/mc" (Except.ok ["t.js"]) (MochaRunBehavior.reports 1)
        = Except.error "1 tests failed.") ∧
    (runMocha "/cwd" "/mc" (Except.ok ["t.js"]) (MochaRunBehavior.reports 0)
        = Except.ok ["/mc/t.js"]) :=
  ⟨(claim_C5_runMocha_failure_signal "/cwd" "/mc" ["t.js"] 1).1 (by decide),
   by
    have := (claim_C5_runMocha_failure_signal "/cwd" "/mc" ["t.js"] 0).2 rfl
    rw [this]
    rfl⟩

/-- C8: when the raw configuration does not set `initWorkspace`, the
resolved `initWorkspace` is true exactly when the resolved
`workspacePath` ends in `".code-workspace"` and nothing exists at that
path. -/
theorem claim_C8_default_initWorkspace {fs : FS} {cwd cp : String} {cfg : RawConfig}
    {cov : Bool} {r : ResolvedConfiguration}
    (hiw : cfg.initWorkspace = none)
    (hok : validateAndResolveConfiguration fs cwd cp cfg cov = Except.ok r) :
    r.initWorkspace = true ↔
      (strEndsWith r.workspacePath ".code-workspace" = true
        ∧ fs.entries r.workspacePath = none) := by
  have hinv := (validate_ok_inv hok).2.2.2.2.2.2.2.1 hiw
  rw [hinv]
  simp [pathExists, Option.isSome_iff_ne_none]

/-- C9: when the raw configuration does not set `disableAllExtensions`,
the resolved value is true exactly when `additionalExtensionFolders` is
absent or empty; an explicit boolean is kept verbatim. -/
theorem claim_C9_disableAllExtensions_default {fs : FS} {cwd cp : String}
    {cfg : RawConfig} {cov : Bool} {r : ResolvedConfiguration}
    (hok : validateAndResolveConfiguration fs cwd cp cfg cov = Except.ok r) :
    (cfg.disableAllExtensions = none →
      (r.disableAllExtensions = true ↔
        (r.additionalExtensionFolders = none ∨ r.additionalExtensionFolders = some []))) ∧
    (∀ b, cfg.disableAllExtensions = some (JVal.bool b) → r.disableAllExtensions = b) := by
  constructor
  · intro hnone
    have hinv := (validate_ok_inv hok).2.2.2.2.2.2.2.2.1 hnone
    rw [hinv]
    cases ha : r.additionalExtensionFolders with
    | none => simp
    | some l => cases l <;> simp
  · exact fun b hb => (validate_ok_inv hok).2.2.2.2.2.2.2.2.2 b hb

/-- C10: with coverage off, the resolved `nycConfigPath` is always
absent, and the raw `nycConfigPath` value is never inspected: replacing
it by anything leaves resolution unchanged. -/
theorem claim_C10_nyc_ignored_without_coverage (fs : FS) (cwd cp : String)
    (cfg : RawConfig) :
    (∀ r, validateAndResolveConfiguration fs cwd cp cfg false = Except.ok r →
        r.nycConfigPath = none) ∧
    (∀ v, validateAndResolveConfiguration fs cwd cp
        { cfg with nycConfigPath := v } false
      = validateAndResolveConfiguration fs cwd cp cfg false) := by
  constructor
  · intro r hok
    exact (validate_ok_inv hok).2.1 rfl
  · intro v
    rfl

/-! ### Concrete fixtures for witnesses and counterexamples -/

/-- An empty filesystem. -/
def fsEmpty : FS := ⟨fun _ => none, fun _ => []⟩

/-- A minimal valid raw configuration (only the required
`mochaConfigPath`). -/
def cfgMinimal : RawConfig := { mochaConfigPath := some (JVal.str "m.js") }

/-- The resolution of `cfgMinimal` against `/dir/config.json` on an
empty filesystem. -/
def rMinimal : ResolvedConfiguration :=
  ⟨"/dir", "/dir/test.code-workspace", true, "/dir/m.js",
   none, none, none, none, none, none, true⟩

theorem cfgMinimal_resolves :
    validateAndResolveConfiguration fsEmpty "/cwd" "/dir/config.json" cfgMinimal false
      = Except.ok rMinimal := by rfl

/-- C8 witness: the default workspace file does not yet exist, so
`initWorkspace` defaults to true on the minimal configuration. -/
theorem claim_C8_witness :
    cfgMinimal.initWorkspace = none ∧
    (rMinimal.initWorkspace = true ↔
      (strEndsWith rMinimal.workspacePath ".code-workspace" = true
        ∧ fsEmpty.entries rMinimal.workspacePath = none)) :=
  ⟨rfl, claim_C8_default_initWorkspace rfl cfgMinimal_resolves⟩

/-- C9 witness: on the minimal configuration (no
`additionalExtensionFolders`, no explicit `disableAllExtensions`) the
default is true. -/
theorem claim_C9_witness :
    rMinimal.disableAllExtensions = true ↔
      (rMinimal.additionalExtensionFolders = none
        ∨ rMinimal.additionalExtensionFolders = some []) :=
  (claim_C9_disableAllExtensions_default cfgMinimal_resolves).1 rfl

/-- C10 witness: with coverage off, a junk `nycConfigPath` value is
neither validated nor carried into the result. -/
theorem claim_C10_witness :
    rMinimal.nycConfigPath = none ∧
    validateAndResolveConfiguration fsEmpty "/cwd" "/dir/config.json"
        { cfgMinimal with nycConfigPath := some (JVal.num 3) } false
      = validateAndResolveConfiguration fsEmpty "/cwd" "/dir/config.json" cfgMinimal false :=
  ⟨(claim_C10_nyc_ignored_without_coverage fsEmpty "/cwd" "/dir/config.json" cfgMinimal).1
      rMinimal cfgMinimal_resolves,
   (claim_C10_nyc_ignored_without_coverage fsEmpty "/cwd" "/dir/config.json" cfgMinimal).2
      (some (JVal.num 3))⟩

theorem assertString_none (n : String) :
    assertStringOrUndefinedParameter n none = Except.ok none := rfl

theorem assertString_some (n s : String) :
    assertStringOrUndefinedParameter n (some (JVal.str s)) = Except.ok (some s) := rfl

theorem validateNyc_true_missing {c : RawConfig} (cwd rel : String)
    (h : c.nycConfigPath = none) :
    validateNycConfigPath cwd true c rel
      = Except.error
          "Configuration error: nycConfigPath must be defined when coverage is enabled" := by
  simp [validateNycConfigPath, h, assertString_none, Except.bind]

theorem validateInitWorkspace_true_folder {fs : FS} {c : RawConfig} {wp0 : String}
    (h : c.initWorkspace = some (JVal.bool true)) :
    validateInitWorkspace fs c false wp0
      = Except.error
          "Configuration error: initWorkspace can be true only for a workspace file and not a folder" := by
  simp [validateInitWorkspace, h]

/-- C1 (amended): a configuration missing `mochaConfigPath` never
resolves, and — whenever the fields checked earlier are well-typed —
fails with exactly the error naming `mochaConfigPath`; with coverage
requested and `mochaConfigPath` present, a missing `nycConfigPath`
fails with exactly the error naming `nycConfigPath`; without coverage
the nyc-missing error can never occur. -/
theorem claim_C1_required_paths (fs : FS) (cwd cp : String) (cfg : RawConfig)
    (edp udd vv : Option String) (un dis aef : Option (List String))
    (hE : cfg.extensionDevelopmentPath = edp.map JVal.str)
    (hU : cfg.userDataDir = udd.map JVal.str)
    (hV : cfg.vscodeVersion = vv.map JVal.str)
    (hUn : cfg.uninstallExtensionIDs = un.map (fun l => JVal.arr (l.map JVal.str)))
    (hDis : cfg.disabledExtensionIDs = dis.map (fun l => JVal.arr (l.map JVal.str)))
    (hAef : cfg.additionalExtensionFolders
      = aef.map (fun l => JVal.arr (l.map JVal.str))) :
    (cfg.mochaConfigPath = none → ∀ cov,
      validateAndResolveConfiguration fs cwd cp cfg cov
        = Except.error "Configuration error: mochaConfigPath must be defined") ∧
    (∀ m, cfg.mochaConfigPath = some (JVal.str m) → cfg.nycConfigPath = none →
      validateAndResolveConfiguration fs cwd cp cfg true
        = Except.error
            "Configuration error: nycConfigPath must be defined when coverage is enabled") ∧
    (∀ cfg2 : RawConfig, cfg2.mochaConfigPath = none →
      ∀ (cov : Bool) (r : ResolvedConfiguration),
      validateAndResolveConfiguration fs cwd cp cfg2 cov ≠ Except.ok r) ∧
    (∀ cfg2 : RawConfig,
      validateAndResolveConfiguration fs cwd cp cfg2 false
        ≠ Except.error
            "Configuration error: nycConfigPath must be defined when coverage is enabled") := by
  refine ⟨?_, ?_, ?_, ?_⟩
  · intro hM cov
    simp only [validateAndResolveConfiguration, hE, hU, hV, hUn, hDis, hAef, hM,
      assertString_map, assertArray_map, assertString_none, Except.bind]
  · intro m hM hNy
    simp only [validateAndResolveConfiguration, hE, hU, hV, hUn, hDis, hAef, hM,
      assertString_map, assertArray_map, assertString_some,
      validateNyc_true_missing cwd (posixResolve cwd cp "..") hNy, Except.bind]
  · intro cfg2 hM cov r hok
    obtain ⟨s, hs, _⟩ := (validate_ok_inv hok).1
    rw [hM] at hs
    exact Option.noConfusion hs
  · exact fun cfg2 => validate_noCov_ne_nycMissing fs cwd cp cfg2

/-- C1 counterexample: a configuration missing `mochaConfigPath` whose
`extensionDevelopmentPath` is ill-typed fails with an error that does
not name `mochaConfigPath`, refuting the unconditional claim. -/
theorem claim_C1_counterexample :
    RawConfig.mochaConfigPath { extensionDevelopmentPath := some (JVal.num 1) } = none ∧
    validateAndResolveConfiguration fsEmpty "/cwd" "/dir/config.json"
        { extensionDevelopmentPath := some (JVal.num 1) } false
      = Except.error "Configuration error: extensionDevelopmentPath must be a string" ∧
    strIncludes "Configuration error: extensionDevelopmentPath must be a string"
        "mochaConfigPath" = false :=
  ⟨rfl, by rfl, by decide⟩

/-- C1 witness: on a minimal well-typed configuration the amended claim
produces the two required errors and the two impossibility facts. -/
theorem claim_C1_witness :
    (validateAndResolveConfiguration fsEmpty "/cwd" "/dir/config.json" {} false
      = Except.error "Configuration error: mochaConfigPath must be defined") ∧
    (validateAndResolveConfiguration fsEmpty "/cwd" "/dir/config.json" cfgMinimal true
      = Except.error
          "Configuration error: nycConfigPath must be defined when coverage is enabled") := by
  have h := claim_C1_required_paths fsEmpty "/cwd" "/dir/config.json" {}
    none none none none none none rfl rfl rfl rfl rfl rfl
  have h2 := claim_C1_required_paths fsEmpty "/cwd" "/dir/config.json" cfgMinimal
    none none none none none none rfl rfl rfl rfl rfl rfl
  exact ⟨h.1 rfl false, h2.2.1 "m.js" rfl rfl⟩

/-- C2 (amended): with `initWorkspace` explicitly true, a resolved
`workspacePath` that does not end in `".code-workspace"` (and therefore
must be an existing directory to pass the earlier check) makes a
well-typed configuration fail with exactly the error naming
`initWorkspace`. -/
theorem claim_C2_initWorkspace_folder (fs : FS) (cwd cp : String) (cfg : RawConfig)
    (edp udd vv : Option String) (un dis aef : Option (List String))
    (m : String) (wp : Option String)
    (hE : cfg.extensionDevelopmentPath = edp.map JVal.str)
    (hU : cfg.userDataDir = udd.map JVal.str)
    (hV : cfg.vscodeVersion = vv.map JVal.str)
    (hUn : cfg.uninstallExtensionIDs = un.map (fun l => JVal.arr (l.map JVal.str)))
    (hDis : cfg.disabledExtensionIDs = dis.map (fun l => JVal.arr (l.map JVal.str)))
    (hAef : cfg.additionalExtensionFolders
      = aef.map (fun l => JVal.arr (l.map JVal.str)))
    (hM : cfg.mochaConfigPath = some (JVal.str m))
    (hWp : cfg.workspacePath = wp.map JVal.str)
    (hIW : cfg.initWorkspace = some (JVal.bool true))
    (hSuf : strEndsWith
        (posixResolve cwd (posixResolve cwd cp "..") (wp.getD "test.code-workspace"))
        ".code-workspace" = false)
    (hDir : fs.entries
        (posixResolve cwd (posixResolve cwd cp "..") (wp.getD "test.code-workspace"))
      = some FSEntry.dir) :
    validateAndResolveConfiguration fs cwd cp cfg false
      = Except.error
          "Configuration error: initWorkspace can be true only for a workspace file and not a folder" := by
  simp only [validateAndResolveConfiguration, hE, hU, hV, hUn, hDis, hAef, hM, hWp,
    hSuf, hDir, pathExists, assertString_map, assertArray_map, assertString_some,
    validateNyc_false, validateInitWorkspace_true_folder hIW, Except.bind]
  simp [hDir]

/-- A filesystem whose only entry is a directory named like a workspace
file. -/
def fsWsDir : FS :=
  ⟨fun p => if p = "/dir/ws.code-workspace" then some FSEntry.dir else none, fun _ => []⟩

/-- A configuration pointing `workspacePath` at that directory with
`initWorkspace` explicitly true. -/
def cfgWsDir : RawConfig :=
  { mochaConfigPath := some (JVal.str "m.js"),
    workspacePath := some (JVal.str "ws.code-workspace"),
    initWorkspace := some (JVal.bool true) }

/-- The successful resolution of `cfgWsDir`. -/
def rWsDir : ResolvedConfiguration :=
  ⟨"/dir", "/dir/ws.code-workspace", true, "/dir/m.js",
   none, none, none, none, none, none, true⟩

/-- C2 counterexample: `initWorkspace = true` with a `workspacePath`
that is an existing directory whose name ends in `".code-workspace"`
resolves successfully — the source decides by suffix, not by the
on-disk kind — refuting the claim that resolution always fails. -/
theorem claim_C2_counterexample :
    cfgWsDir.initWorkspace = some (JVal.bool true) ∧
    fsWsDir.entries rWsDir.workspacePath = some FSEntry.dir ∧
    validateAndResolveConfiguration fsWsDir "/cwd" "/dir/config.json" cfgWsDir false
      = Except.ok rWsDir :=
  ⟨rfl, by rfl, by rfl⟩

/-- A filesystem whose only entry is a plain directory. -/
def fsPlainDir : FS :=
  ⟨fun p => if p = "/dir/wsdir" then some FSEntry.dir else none, fun _ => []⟩

/-- A configuration with `initWorkspace = true` over that directory. -/
def cfgPlainDir : RawConfig :=
  { mochaConfigPath := some (JVal.str "m.js"),
    workspacePath := some (JVal.str "wsdir"),
    initWorkspace := some (JVal.bool true) }

/-- C2 witness: on a concrete existing plain directory the amended
claim yields the `initWorkspace` error. -/
theorem claim_C2_witness :
    validateAndResolveConfiguration fsPlainDir "/cwd" "/dir/config.json" cfgPlainDir false
      = Except.error
          "Configuration error: initWorkspace can be true only for a workspace file and not a folder" :=
  claim_C2_initWorkspace_folder fsPlainDir "/cwd" "/dir/config.json" cfgPlainDir
    none none none none none none "m.js" (some "wsdir")
    rfl rfl rfl rfl rfl rfl rfl rfl rfl (by decide) (by rfl)

/-- C3 (amended): for every valid configuration loaded from an absolute
configuration file path, each explicitly given path field whose value is
relative (and without a trailing separator) resolves to the
directory-join of the configuration directory with that value, and the
process working directory plays no role in the outcome; an absolute
value is kept as-is by `path.resolve` instead of being joined. -/
theorem claim_C3_paths_joined {fs : FS} {cwd cp : String} {cfg : RawConfig}
    {cov : Bool} {r : ResolvedConfiguration}
    (hcp : strStartsWith cp "/" = true)
    (hok : validateAndResolveConfiguration fs cwd cp cfg cov = Except.ok r) :
    (∀ P, relPathOk P → cfg.extensionDevelopmentPath = some (JVal.str P) →
        r.extensionDevelopmentPath = posixJoin (posixResolve cwd cp "..") P) ∧
    (∀ P, relPathOk P → cfg.userDataDir = some (JVal.str P) →
        r.userDataDir = some (posixJoin (posixResolve cwd cp "..") P)) ∧
    (∀ P, relPathOk P → cfg.mochaConfigPath = some (JVal.str P) →
        r.mochaConfigPath = posixJoin (posixResolve cwd cp "..") P) ∧
    (cov = true → ∀ P, relPathOk P → cfg.nycConfigPath = some (JVal.str P) →
        r.nycConfigPath = some (posixJoin (posixResolve cwd cp "..") P)) ∧
    (∀ P, relPathOk P → cfg.workspacePath = some (JVal.str P) →
        r.workspacePath = posixJoin (posixResolve cwd cp "..") P) ∧
    (∀ ss : List String, (∀ P ∈ ss, relPathOk P) →
        cfg.additionalExtensionFolders = some (JVal.arr (ss.map JVal.str)) →
        r.additionalExtensionFolders
          = some (ss.map (fun P => posixJoin (posixResolve cwd cp "..") P))) ∧
    (∀ cwd2, validateAndResolveConfiguration fs cwd2 cp cfg cov = Except.ok r) := by
  have hdirAbs : strStartsWith (posixResolve cwd cp "..") "/" = true :=
    posixResolve_abs hcp
  have hinv := validate_ok_inv hok
  have hjoin : ∀ P, relPathOk P →
      posixResolve cwd (posixResolve cwd cp "..") P
        = posixJoin (posixResolve cwd cp "..") P := by
    intro P hP
    exact posixResolve_eq_posixJoin hdirAbs hP.1 hP.2.1 hP.2.2
  refine ⟨?_, ?_, ?_, ?_, ?_, ?_, ?_⟩
  · intro P hP hfield
    rw [hinv.2.2.2.1 P hfield, hjoin P hP]
  · intro P hP hfield
    rw [hinv.2.2.2.2.1 P hfield, hjoin P hP]
  · intro P hP hfield
    obtain ⟨s, hs, hr⟩ := hinv.1
    rw [hfield] at hs
    simp only [Option.some.injEq, JVal.str.injEq] at hs
    subst hs
    rw [hr, hjoin P hP]
  · intro hcov P hP hfield
    obtain ⟨s, hs, hr⟩ := hinv.2.2.1 hcov
    rw [hfield] at hs
    simp only [Option.some.injEq, JVal.str.injEq] at hs
    subst hs
    rw [hr, hjoin P hP]
  · intro P hP hfield
    rw [hinv.2.2.2.2.2.1 P hfield, hjoin P hP]
  · intro ss hss hfield
    rw [hinv.2.2.2.2.2.2.1 ss hfield]
    have hmap : ss.map (fun p => posixResolve cwd (posixResolve cwd cp "..") p)
        = ss.map (fun P => posixJoin (posixResolve cwd cp "..") P) :=
      List.map_congr_left (fun a ha => hjoin a (hss a ha))
    rw [hmap]
  · intro cwd2
    exact (validate_cwd_irrel hcp fs cwd2 cwd cfg cov).trans hok

/-- C3 counterexample: an absolute `mochaConfigPath` value is kept as-is
by resolution instead of being directory-joined to the configuration
directory, refuting the unconditional join claim. -/
theorem claim_C3_counterexample :
    (validateAndResolveConfiguration fsEmpty "/cwd" "/dir/config.json"
        { mochaConfigPath := some (JVal.str "/abs/m.json") } false).map
        (fun r => r.mochaConfigPath) = Except.ok "/abs/m.json" ∧
    posixJoin (posixResolve "/cwd" "/dir/config.json" "..") "/abs/m.json"
      = "/dir/abs/m.json" ∧
    ("/abs/m.json" : String) ≠ "/dir/abs/m.json" :=
  ⟨by rfl, by rfl, by decide⟩

/-- A fully-typed configuration with relative values for every path
field. -/
def cfgAllPaths : RawConfig :=
  { extensionDevelopmentPath := some (JVal.str "ext"),
    userDataDir := some (JVal.str "udd"),
    mochaConfigPath := some (JVal.str "m.js"),
    workspacePath := some (JVal.str "ws.code-workspace"),
    additionalExtensionFolders := some (JVal.arr [JVal.str "fold"]) }

/-- The resolution of `cfgAllPaths` against `/dir/config.json`. -/
def rAllPaths : ResolvedConfiguration :=
  ⟨"/dir/ext", "/dir/ws.code-workspace", true, "/dir/m.js",
   none, some "/dir/udd", none, some ["/dir/fold"], none, none, false⟩

theorem cfgAllPaths_resolves :
    validateAndResolveConfiguration fsEmpty "/cwd" "/dir/config.json" cfgAllPaths false
      = Except.ok rAllPaths := by rfl

/-- C3 witness: on a concrete valid configuration the resolved path
fields equal the directory-joins, and the outcome is unchanged under a
different process working directory. -/
theorem claim_C3_witness :
    rAllPaths.mochaConfigPath
      = posixJoin (posixResolve "/cwd" "/dir/config.json" "..") "m.js" ∧
    rAllPaths.userDataDir
      = some (posixJoin (posixResolve "/cwd" "/dir/config.json" "..") "udd") ∧
    rAllPaths.additionalExtensionFolders
      = some (["fold"].map
          (fun P => posixJoin (posixResolve "/cwd" "/dir/config.json" "..") P)) ∧
    validateAndResolveConfiguration fsEmpty "/other" "/dir/config.json" cfgAllPaths false
      = Except.ok rAllPaths := by
  have h := claim_C3_paths_joined (by decide) cfgAllPaths_resolves
  exact ⟨h.2.2.1 "m.js" (by decide) rfl,
         h.2.1 "udd" (by decide) rfl,
         h.2.2.2.2.2.1 ["fold"] (by decide) rfl,
         h.2.2.2.2.2.2 "/other"⟩

/-! ### C7: the `require` key of the mocha configuration -/

theorem isPrefixOf_append_left {n p : List Char} (q : List Char)
    (h : List.isPrefixOf n p = true) : List.isPrefixOf n (p ++ q) = true := by
  induction n generalizing p with
  | nil => simp [List.isPrefixOf]
  | cons c t ih =>
      cases p with
      | nil => simp [List.isPrefixOf] at h
      | cons x xs =>
          simp only [List.isPrefixOf, List.cons_append, Bool.and_eq_true] at h ⊢
          exact ⟨h.1, ih h.2⟩

theorem strIncludes_of_head (pre suf needle : String)
    (h : List.isPrefixOf needle.data pre.data = true) :
    strIncludes (pre ++ suf) needle = true := by
  unfold strIncludes
  rw [str_data_append]
  exact containsSubList_of_isPrefixOf (isPrefixOf_append_left suf.data h)

theorem requireEntries_map (ss : List String) :
    requireEntries (ss.map JVal.str) = Except.ok ss := by
  induction ss with
  | nil => rfl
  | cons s t ih => simp [requireEntries, ih, Except.map]

theorem requireEntries_err {xs : List JVal}
    (hbad : ¬ ∀ x ∈ xs, ∃ s, x = JVal.str s) :
    ∃ e, requireEntries xs = Except.error e
      ∧ strIncludes e "require property in Mocha configuration" = true := by
  induction xs with
  | nil => exact absurd (by simp) hbad
  | cons x t ih =>
      cases x with
      | str s =>
          have hbad2 : ¬ ∀ x ∈ t, ∃ s2, x = JVal.str s2 := by
            intro hall
            apply hbad
            intro y hy
            rcases List.mem_cons.mp hy with hy1 | hy2
            · exact ⟨s, hy1⟩
            · exact hall y hy2
          obtain ⟨e, he, hinc⟩ := ih hbad2
          refine ⟨e, ?_, hinc⟩
          simp [requireEntries, he, Except.map]
      | bool b => exact ⟨_, rfl, strIncludes_of_head _ _ _ (by decide)⟩
      | num m => exact ⟨_, rfl, strIncludes_of_head _ _ _ (by decide)⟩
      | arr ys => exact ⟨_, rfl, strIncludes_of_head _ _ _ (by decide)⟩

/-- C7 (amended): `handleRequire` accepts an absent value, a single
string (one module) and an array of strings (those modules in order);
an array containing a non-string entry fails with an error naming the
`require` property; any other value (boolean, number, …) is silently
ignored and loads no modules — it does not fail.  When the `require`
handling fails, the executor's `run` fails before any test file is
discovered: its result is that error, for every discovery or execution
oracle. -/
theorem claim_C7_require_handling :
    (handleRequire none = Except.ok []) ∧
    (∀ b, handleRequire (some (JVal.bool b)) = Except.ok []) ∧
    (∀ n : Int, handleRequire (some (JVal.num n)) = Except.ok []) ∧
    (∀ s, handleRequire (some (JVal.str s)) = Except.ok [s]) ∧
    (∀ ss : List String,
      handleRequire (some (JVal.arr (ss.map JVal.str))) = Except.ok ss) ∧
    (∀ xs : List JVal, (¬ ∀ x ∈ xs, ∃ s, x = JVal.str s) →
      ∃ e, handleRequire (some (JVal.arr xs)) = Except.error e
        ∧ strIncludes e "require property in Mocha configuration" = true) ∧
    (∀ (mochaCwd cfgPath cwd sp e : String) (cf : MochaConfigFile)
        (g1 : String → Except String (List String)) (b1 : MochaRunBehavior),
      handleSpec cf.spec = Except.ok sp →
      handleRequire cf.require = Except.error e →
      mochaTestsRun (some mochaCwd) (some cfgPath) (fun _ => cf) cwd g1 b1
        = Except.error e) := by
  refine ⟨rfl, fun b => rfl, fun n => rfl, fun s => rfl,
    fun ss => requireEntries_map ss, fun xs hbad => requireEntries_err hbad,
    ?_⟩
  intro mochaCwd cfgPath cwd sp e cf g1 b1 hsp hre
  simp only [mochaTestsRun, hsp, hre, Except.bind]

/-- C7 counterexample: a `require` value that is neither absent, nor a
string, nor an array (here the number 42) is silently ignored — no
error is raised and no module is loaded — refuting the claim that the
executor always fails on such values. -/
theorem claim_C7_counterexample :
    handleRequire (some (JVal.num 42)) = Except.ok [] := rfl

/-- C7 witness: an array with a non-string entry does fail with an
error naming the require property, and that failure pre-empts file
discovery in `run`. -/
theorem claim_C7_witness :
    (∃ e, handleRequire (some (JVal.arr [JVal.num 2])) = Except.error e
      ∧ strIncludes e "require property in Mocha configuration" = true) ∧
    handleRequire (some (JVal.str "mod")) = Except.ok ["mod"] :=
  ⟨(claim_C7_require_handling).2.2.2.2.2.1 [JVal.num 2]
      (fun hall => by
        rcases hall (JVal.num 2) (by simp) with ⟨s, hs⟩
        exact JVal.noConfusion hs),
   (claim_C7_require_handling).2.2.2.1 "mod"⟩

/-! ### C4: the bounded install retry -/

/-- C4: when extension installation runs (install folders non-empty and
their `.vsix` scan succeeds), there is a first piped install invocation;
it is followed by exactly one retry — with an identical argument list,
output inherited — precisely when the captured stderr is defined and
contains both `"Failed"` and `"restart"`; otherwise it is the only
install invocation. -/
theorem claim_C4_install_retry (fs : FS) (stderrOracle : List String → Option String)
    (cliPath : String) (userDataDir : Option String)
    (uninstallIDs : Option (List String)) (folders : List String) (ia : List String)
    (hfold : folders ≠ [])
    (hia : getInstallArgsFromInstallationFolders fs folders = Except.ok ia) :
    ∃ invs,
      installExtensions fs stderrOracle cliPath userDataDir uninstallIDs (some folders)
        = Except.ok invs ∧
      ∃ args,
        (invs.drop (if (uninstallIDs.getD []).isEmpty then 0 else 1)
            = [Invocation.mk cliPath args true]
          ∨ invs.drop (if (uninstallIDs.getD []).isEmpty then 0 else 1)
            = [Invocation.mk cliPath args true, Invocation.mk cliPath args false]) ∧
        ((∃ s, stderrOracle args = some s ∧ strIncludes s "Failed" = true
            ∧ strIncludes s "restart" = true)
          ↔ invs.drop (if (uninstallIDs.getD []).isEmpty then 0 else 1)
            = [Invocation.mk cliPath args true, Invocation.mk cliPath args false]) := by
  have hisEmpty : folders.isEmpty = false := by
    cases folders with
    | nil => exact absurd rfl hfold
    | cons a t => rfl
  have hguard : ¬(folders.isEmpty = true ∧ (uninstallIDs.getD []).isEmpty = true) := by
    intro hcon
    rw [hisEmpty] at hcon
    exact Bool.noConfusion hcon.1
  have hlen : folders.length > 0 := by
    cases folders with
    | nil => exact absurd rfl hfold
    | cons a t => simp
  have hdrop : ∀ l : List Invocation,
      ((if (uninstallIDs.getD []).length > 0 then
          [Invocation.mk cliPath ((uninstallIDs.getD []).foldr
              (fun i acc => "--uninstall-extension" :: i :: acc) []
            ++ ["--force"] ++ userDataDirArgs userDataDir) false]
        else []) ++ l).drop (if (uninstallIDs.getD []).isEmpty then 0 else 1) = l := by
    intro l
    rcases hu : uninstallIDs.getD [] with _ | ⟨u0, ut⟩
    · simp
    · simp
  refine ⟨(if (uninstallIDs.getD []).length > 0 then
      [Invocation.mk cliPath ((uninstallIDs.getD []).foldr
          (fun i acc => "--uninstall-extension" :: i :: acc) []
        ++ ["--force"] ++ userDataDirArgs userDataDir) false]
    else []) ++
    (match stderrOracle (ia ++ ["--force"] ++ userDataDirArgs userDataDir) with
     | some s =>
        if strIncludes s "Failed" && strIncludes s "restart" then
          [Invocation.mk cliPath (ia ++ ["--force"] ++ userDataDirArgs userDataDir) true,
           Invocation.mk cliPath (ia ++ ["--force"] ++ userDataDirArgs userDataDir) false]
        else
          [Invocation.mk cliPath (ia ++ ["--force"] ++ userDataDirArgs userDataDir) true]
     | none =>
        [Invocation.mk cliPath (ia ++ ["--force"] ++ userDataDirArgs userDataDir) true]),
    ?_, ia ++ ["--force"] ++ userDataDirArgs userDataDir, ?_, ?_⟩
  · simp only [installExtensions, if_neg hguard, Option.getD_some, hia, Except.bind,
      if_pos hlen]
  · rw [hdrop]
    rcases ho : stderrOracle (ia ++ ["--force"] ++ userDataDirArgs userDataDir) with _ | s
    · left
      rfl
    · by_cases hc : (strIncludes s "Failed" && strIncludes s "restart") = true
      · right
        simp [hc]
      · left
        simp [hc]
  · rw [hdrop]
    rcases ho : stderrOracle (ia ++ ["--force"] ++ userDataDirArgs userDataDir) with _ | s
    · simp
    · by_cases hc : (strIncludes s "Failed" && strIncludes s "restart") = true
      · have hc2 := (Bool.and_eq_true _ _).mp hc
        constructor
        · intro _
          simp [hc]
        · intro _
          exact ⟨s, rfl, hc2.1, hc2.2⟩
      · constructor
        · rintro ⟨s2, hs2, hf, hr⟩
          rcases Option.some.inj hs2 with rfl
          exact absurd (by simp [hf, hr]) hc
        · intro hlist
          simp [hc] at hlist

/-- A filesystem with one extension folder holding one `.vsix` file. -/
def fsVsix : FS :=
  ⟨fun p => if p = "/f" then some FSEntry.dir else none,
   fun p => if p = "/f" then ["a.vsix"] else []⟩

/-- A subprocess oracle reporting the transient failure signature. -/
def sigRetryOracle : List String → Option String :=
  fun _ => some "Please restart VS Code before reinstalling. Failed Installing Extensions: x"

/-- C4 witness: a concrete install run whose captured stderr carries the
failure signature. -/
theorem claim_C4_witness :
    ∃ invs,
      installExtensions fsVsix sigRetryOracle "cli" none none (some ["/f"])
        = Except.ok invs ∧
      ∃ args,
        (invs.drop (if ((none : Option (List String)).getD []).isEmpty then 0 else 1)
            = [Invocation.mk "cli" args true]
          ∨ invs.drop (if ((none : Option (List String)).getD []).isEmpty then 0 else 1)
            = [Invocation.mk "cli" args true, Invocation.mk "cli" args false]) ∧
        ((∃ s, sigRetryOracle args = some s ∧ strIncludes s "Failed" = true
            ∧ strIncludes s "restart" = true)
          ↔ invs.drop (if ((none : Option (List String)).getD []).isEmpty then 0 else 1)
            = [Invocation.mk "cli" args true, Invocation.mk "cli" args false]) :=
  claim_C4_install_retry fsVsix sigRetryOracle "cli" none none ["/f"]
    ["--install-extension", "/f/a.vsix"] (by decide) (by rfl)

/-! ### C6: workspace descriptor lifecycle in `runVSCodeTests` -/

theorem finalizeRun_outcome (o : HostOracles) (sp : List Invocation)
    (w : Option (String × WorkspaceDescriptor)) (ran : Option LaunchSpec)
    (out : Except String Unit) : (finalizeRun o sp w ran out).outcome = out := by
  cases w with
  | none => rfl
  | some pw => cases h : o.unlinkResult <;> simp [finalizeRun, h]

theorem finalizeRun_wrote (o : HostOracles) (sp : List Invocation)
    (w : Option (String × WorkspaceDescriptor)) (ran : Option LaunchSpec)
    (out : Except String Unit) : (finalizeRun o sp w ran out).wroteWorkspace = w := by
  cases w with
  | none => rfl
  | some pw => cases h : o.unlinkResult <;> simp [finalizeRun, h]

theorem finalizeRun_cleanup (o : HostOracles) (sp : List Invocation)
    (w : Option (String × WorkspaceDescriptor)) (ran : Option LaunchSpec)
    (out : Except String Unit) (pw : String × WorkspaceDescriptor) (hw : w = some pw) :
    (finalizeRun o sp w ran out).workspaceDeleted = some pw.1
      ∨ (finalizeRun o sp w ran out).deleteFailureLogged = some pw.1 := by
  subst hw
  cases h : o.unlinkResult with
  | ok u =>
      left
      simp [finalizeRun, h]
  | error e =>
      right
      simp [finalizeRun, h]

theorem finalizeRun_deleted_inv (o : HostOracles) (sp : List Invocation)
    (w : Option (String × WorkspaceDescriptor)) (ran : Option LaunchSpec)
    (out : Except String Unit) (p : String)
    (hd : (finalizeRun o sp w ran out).workspaceDeleted = some p) :
    ∃ d, w = some (p, d) := by
  cases w with
  | none => simp [finalizeRun] at hd
  | some pw =>
      cases h : o.unlinkResult with
      | ok u =>
          simp only [finalizeRun, h, Option.some.injEq] at hd
          exact ⟨pw.2, by rw [← hd]⟩
      | error e => simp [finalizeRun, h] at hd

/-- Every run is a `finalizeRun` of some body outcome, and the
workspace descriptor is recorded as written only when `initWorkspace`
is set, at `config.workspacePath`, with empty content. -/
theorem runVSCodeTests_shape (fs : FS) (isWin32 : Bool) (cwd dv : String)
    (rc : String → String) (o : HostOracles) (cov : Bool)
    (config : ResolvedConfiguration) :
    ∃ sp wrote ran out,
      runVSCodeTests fs isWin32 cwd dv rc o cov config = finalizeRun o sp wrote ran out ∧
      (wrote = none
        ∨ (config.initWorkspace = true
            ∧ wrote = some (config.workspacePath, WorkspaceDescriptor.mk []))) := by
  unfold runVSCodeTests
  cases hd : o.downloadResult with
  | error e => exact ⟨[], none, none, Except.error e, rfl, Or.inl rfl⟩
  | ok v =>
      dsimp only
      cases hi : installExtensions fs o.installStderr (rc v) config.userDataDir
          config.uninstallExtensionIDs config.additionalExtensionFolders with
      | error e => exact ⟨[], none, none, Except.error e, rfl, Or.inl rfl⟩
      | ok invs =>
          dsimp only
          cases hiw : config.initWorkspace with
          | false => exact ⟨invs, none, _, o.runTestsResult, rfl, Or.inl rfl⟩
          | true =>
              cases hm : o.mkdirsResult with
              | error e => exact ⟨invs, none, none, Except.error e, rfl, Or.inl rfl⟩
              | ok u =>
                  dsimp only
                  cases hj : o.writeJsonResult with
                  | error e => exact ⟨invs, none, none, Except.error e, rfl, Or.inl rfl⟩
                  | ok u2 =>
                      exact ⟨invs, some (config.workspacePath, WorkspaceDescriptor.mk []),
                        _, o.runTestsResult, rfl, Or.inr ⟨rfl, rfl⟩⟩

/-- C6 (amended): the launcher records a written workspace descriptor
only when `initWorkspace` is set — at `config.workspacePath`, with the
empty content — and does write it whenever `initWorkspace` is set and
the preceding steps (download, provisioning, directory creation, the
write itself) succeed; whenever the descriptor was written its deletion
is attempted on every exit path (deleted, or the failure logged); the
deletion outcome never changes the run's outcome; and a descriptor that
was not written is never deleted. -/
theorem claim_C6_workspace_lifecycle (fs : FS) (isWin32 : Bool) (cwd dv : String)
    (rc : String → String) (o : HostOracles) (cov : Bool)
    (config : ResolvedConfiguration) :
    (∀ p d,
      (runVSCodeTests fs isWin32 cwd dv rc o cov config).wroteWorkspace = some (p, d) →
      config.initWorkspace = true ∧ p = config.workspacePath
        ∧ d = WorkspaceDescriptor.mk []) ∧
    (∀ v invs, config.initWorkspace = true →
      o.downloadResult = Except.ok v →
      installExtensions fs o.installStderr (rc v) config.userDataDir
          config.uninstallExtensionIDs config.additionalExtensionFolders
        = Except.ok invs →
      o.mkdirsResult = Except.ok () →
      o.writeJsonResult = Except.ok () →
      (runVSCodeTests fs isWin32 cwd dv rc o cov config).wroteWorkspace
        = some (config.workspacePath, WorkspaceDescriptor.mk [])) ∧
    (∀ p d,
      (runVSCodeTests fs isWin32 cwd dv rc o cov config).wroteWorkspace = some (p, d) →
      (runVSCodeTests fs isWin32 cwd dv rc o cov config).workspaceDeleted = some p
        ∨ (runVSCodeTests fs isWin32 cwd dv rc o cov config).deleteFailureLogged
            = some p) ∧
    (∀ x,
      (runVSCodeTests fs isWin32 cwd dv rc { o with unlinkResult := x } cov
          config).outcome
        = (runVSCodeTests fs isWin32 cwd dv rc o cov config).outcome) ∧
    (∀ p,
      (runVSCodeTests fs isWin32 cwd dv rc o cov config).workspaceDeleted = some p →
      ∃ d, (runVSCodeTests fs isWin32 cwd dv rc o cov config).wroteWorkspace
        = some (p, d)) := by
  obtain ⟨sp, wrote, ran, out, heq, hdis⟩ :=
    runVSCodeTests_shape fs isWin32 cwd dv rc o cov config
  refine ⟨?_, ?_, ?_, ?_, ?_⟩
  · intro p d hw
    rw [heq, finalizeRun_wrote] at hw
    rcases hdis with hnone | ⟨hiw, hval⟩
    · rw [hnone] at hw
      exact Option.noConfusion hw
    · rw [hval] at hw
      rcases Option.some.inj hw with h2
      exact ⟨hiw, congrArg Prod.fst h2.symm, congrArg Prod.snd h2.symm⟩
  · intro v invs hiw hD hInst hm hj
    simp only [runVSCodeTests, hD, hInst, hiw, hm, hj, if_true, ite_true]
    rw [finalizeRun_wrote]
  · intro p d hw
    rw [heq, finalizeRun_wrote] at hw
    rw [heq]
    exact finalizeRun_cleanup o sp wrote ran out (p, d) hw
  · intro x
    cases hd : o.downloadResult with
    | error e => simp [runVSCodeTests, hd, finalizeRun_outcome]
    | ok v =>
        cases hi : installExtensions fs o.installStderr (rc v) config.userDataDir
            config.uninstallExtensionIDs config.additionalExtensionFolders with
        | error e => simp [runVSCodeTests, hd, hi, finalizeRun_outcome]
        | ok invs =>
            cases hiw : config.initWorkspace with
            | false => simp [runVSCodeTests, hd, hi, hiw, finalizeRun_outcome]
            | true =>
                cases hm : o.mkdirsResult with
                | error e =>
                    simp [runVSCodeTests, hd, hi, hiw, hm, finalizeRun_outcome]
                | ok u =>
                    cases hj : o.writeJsonResult with
                    | error e =>
                        simp [runVSCodeTests, hd, hi, hiw, hm, hj, finalizeRun_outcome]
                    | ok u2 =>
                        simp [runVSCodeTests, hd, hi, hiw, hm, hj, finalizeRun_outcome]
  · intro p hdel
    rw [heq] at hdel ⊢
    obtain ⟨d, hw⟩ := finalizeRun_deleted_inv o sp wrote ran out p hdel
    exact ⟨d, by rw [finalizeRun_wrote, hw]⟩

/-- External-collaborator outcomes in which every step succeeds. -/
def oraclesOk : HostOracles :=
  ⟨Except.ok "/vsc", fun _ => none, Except.ok (), Except.ok (), Except.ok (), Except.ok ()⟩

/-- External-collaborator outcomes in which the VS Code download
fails. -/
def oraclesDownFail : HostOracles :=
  ⟨Except.error "download failed", fun _ => none, Except.ok (), Except.ok (),
   Except.ok (), Except.ok ()⟩

/-- C6 counterexample: with `initWorkspace = true` but a failing VS Code
download, the workspace descriptor is never written, refuting the
unconditional "writes if and only if `initWorkspace`" claim. -/
theorem claim_C6_counterexample :
    rMinimal.initWorkspace = true ∧
    (runVSCodeTests fsEmpty false "/cwd" "/dist" (fun s => s) oraclesDownFail false
        rMinimal).wroteWorkspace = none :=
  ⟨rfl, rfl⟩

/-- C6 witness: a fully successful run writes the descriptor, attempts
its deletion, and a failing deletion does not change the outcome. -/
theorem claim_C6_witness :
    (runVSCodeTests fsEmpty false "/cwd" "/dist" (fun s => s) oraclesOk false
        rMinimal).wroteWorkspace
      = some ("/dir/test.code-workspace", WorkspaceDescriptor.mk []) ∧
    ((runVSCodeTests fsEmpty false "/cwd" "/dist" (fun s => s) oraclesOk false
        rMinimal).workspaceDeleted = some "/dir/test.code-workspace"
      ∨ (runVSCodeTests fsEmpty false "/cwd" "/dist" (fun s => s) oraclesOk false
          rMinimal).deleteFailureLogged = some "/dir/test.code-workspace") ∧
    (runVSCodeTests fsEmpty false "/cwd" "/dist" (fun s => s)
        { oraclesOk with unlinkResult := Except.error "locked" } false rMinimal).outcome
      = (runVSCodeTests fsEmpty false "/cwd" "/dist" (fun s => s) oraclesOk false
          rMinimal).outcome := by
  have h := claim_C6_workspace_lifecycle fsEmpty false "/cwd" "/dist" (fun s => s)
    oraclesOk false rMinimal
  have hwrote := h.2.1 "/vsc" [] rfl rfl (by rfl) rfl rfl
  exact ⟨hwrote, h.2.2.1 "/dir/test.code-workspace" (WorkspaceDescriptor.mk []) hwrote,
    h.2.2.2.1 (Except.error "locked")⟩
